import Mathlib

/-!
Verification of the SLB approval-broker core against its specification.

The Go sources are embedded shallowly: byte strings become `List Nat`
(each element a byte value), Go `string` results become Lean `String`,
wall-clock instants and durations become `Int` (nanoseconds), and the
durable store becomes explicit values threaded through the functions.
Functions whose Go source is absent from the source tree (only their
tests or callers are present) are modelled from the specification text;
each such definition carries a doc comment starting with
"Modelled from the spec:".
-/

namespace SLB

/-! ## SHA-256 (crypto/sha256, as used by internal/utils/hash.go) -/

/-- Truncate to a 32-bit word, as all Go `uint32` arithmetic does. -/
def w32 (x : Nat) : Nat := x &&& 0xffffffff

/-- Rotate a 32-bit word right by `n` bits. -/
def rotr (n x : Nat) : Nat := w32 ((x >>> n) ||| (x <<< (32 - n)))

def bSig0 (x : Nat) : Nat := (rotr 2 x) ^^^ (rotr 13 x) ^^^ (rotr 22 x)
def bSig1 (x : Nat) : Nat := (rotr 6 x) ^^^ (rotr 11 x) ^^^ (rotr 25 x)
def sSig0 (x : Nat) : Nat := (rotr 7 x) ^^^ (rotr 18 x) ^^^ (x >>> 3)
def sSig1 (x : Nat) : Nat := (rotr 17 x) ^^^ (rotr 19 x) ^^^ (x >>> 10)

/-- The 64 SHA-256 round constants (decimal). -/
def shaK : List Nat := [
  1116352408, 1899447441, 3049323471, 3921009573, 961987163, 1508970993,
  2453635748, 2870763221, 3624381080, 310598401, 607225278, 1426881987,
  1925078388, 2162078206, 2614888103, 3248222580, 3835390401, 4022224774,
  264347078, 604807628, 770255983, 1249150122, 1555081692, 1996064986,
  2554220882, 2821834349, 2952996808, 3210313671, 3336571891, 3584528711,
  113926993, 338241895, 666307205, 773529912, 1294757372, 1396182291,
  1695183700, 1986661051, 2177026350, 2456956037, 2730485921, 2820302411,
  3259730800, 3345764771, 3516065817, 3600352804, 4094571909, 275423344,
  430227734, 506948616, 659060556, 883997877, 958139571, 1322822218,
  1537002063, 1747873779, 1955562222, 2024104815, 2227730452, 2361852424,
  2428436474, 2756734187, 3204031479, 3329325298]

/-- Group bytes into 32-bit big-endian words. -/
def toWords : List Nat → List Nat
  | b0 :: b1 :: b2 :: b3 :: rest =>
      (((b0 <<< 8 ||| b1) <<< 8 ||| b2) <<< 8 ||| b3) :: toWords rest
  | _ => []

/-- Extend the 16 block words by `fuel` message-schedule words, carrying the
most recent 16 words as a sliding window. -/
def wExt (fuel : Nat) (window : List Nat) : List Nat :=
  match fuel with
  | 0 => []
  | n+1 =>
      let nw := w32 (sSig1 (window.getD 14 0) + window.getD 9 0 +
        sSig0 (window.getD 1 0) + window.getD 0 0)
      nw :: wExt n (window.drop 1 ++ [nw])

/-- The 64-entry message schedule of one 64-byte block. -/
def schedule (block : List Nat) : List Nat :=
  let w0 := toWords block
  w0 ++ wExt 48 w0

/-- The SHA-256 round function, iterated over the paired round constants and
schedule words. -/
def rounds : List Nat → List Nat → Nat → Nat → Nat → Nat → Nat → Nat → Nat → Nat → List Nat
  | [], _, a, b, c, d, e, f, g, h => [a, b, c, d, e, f, g, h]
  | _, [], a, b, c, d, e, f, g, h => [a, b, c, d, e, f, g, h]
  | k :: ks, w :: ws, a, b, c, d, e, f, g, h =>
      let ch := (e &&& f) ^^^ ((0xffffffff ^^^ e) &&& g)
      let maj := (a &&& b) ^^^ (a &&& c) ^^^ (b &&& c)
      let t1 := w32 (h + bSig1 e + ch + k + w)
      let t2 := w32 (bSig0 a + maj)
      rounds ks ws (w32 (t1 + t2)) a b c (w32 (d + t1)) e f g

/-- Compress one 64-byte block into the running hash state. -/
def compressBlock (h : List Nat) (block : List Nat) : List Nat :=
  let w := schedule block
  match h with
  | [h0, h1, h2, h3, h4, h5, h6, h7] =>
      match rounds shaK w h0 h1 h2 h3 h4 h5 h6 h7 with
      | [a, b, c, d, e, f, g, hh] =>
          [w32 (h0 + a), w32 (h1 + b), w32 (h2 + c), w32 (h3 + d),
           w32 (h4 + e), w32 (h5 + f), w32 (h6 + g), w32 (h7 + hh)]
      | _ => []
  | _ => []

/-- The SHA-256 initial hash state (decimal). -/
def initH : List Nat :=
  [1779033703, 3144134277, 1013904242, 2773480762,
   1359893119, 2600822924, 528734635, 1541459225]

/-- Merkle-Damgard padding: append 0x80, zero bytes, and the 64-bit
big-endian bit length, up to a multiple of 64 bytes. -/
def padMsg (msg : List Nat) : List Nat :=
  let len := msg.length
  let bitLen := len * 8
  let padLen := (64 - (len + 9) % 64) % 64
  msg ++ [0x80] ++ List.replicate padLen 0 ++
    [(bitLen >>> 56) &&& 0xff, (bitLen >>> 48) &&& 0xff, (bitLen >>> 40) &&& 0xff,
     (bitLen >>> 32) &&& 0xff, (bitLen >>> 24) &&& 0xff, (bitLen >>> 16) &&& 0xff,
     (bitLen >>> 8) &&& 0xff, bitLen &&& 0xff]

/-- Fold the compression function over successive 64-byte chunks; the fuel is
an upper bound on the number of chunks (the padded length suffices). -/
def compressChunks : Nat → List Nat → List Nat → List Nat
  | 0, h, _ => h
  | _, h, [] => h
  | fuel+1, h, l => compressChunks fuel (compressBlock h (l.take 64)) (l.drop 64)

/-- SHA-256 of a byte string, as a list of 32 digest bytes. -/
def sha256 (msg : List Nat) : List Nat :=
  let padded := padMsg msg
  let h := compressChunks padded.length initH padded
  h.flatMap (fun word =>
    [(word >>> 24) &&& 0xff, (word >>> 16) &&& 0xff, (word >>> 8) &&& 0xff, word &&& 0xff])

/-! ## Hex encoding (encoding/hex.EncodeToString) -/

/-- Lowercase hex digit for a nibble. -/
def hexChar (n : Nat) : Char := if n < 10 then Char.ofNat (48 + n) else Char.ofNat (87 + n)

/-- Hex encoding of a byte string, two lowercase digits per byte. -/
def hexEncode (bytes : List Nat) : String :=
  String.mk (bytes.flatMap (fun b => [hexChar ((b >>> 4) &&& 0xf), hexChar (b &&& 0xf)]))

/-! ## JSON serialization of argv (encoding/json.Marshal for a Go []string)

Strings are byte strings; the model covers valid UTF-8 input without the
U+2028/U+2029 special cases, which never arise in the claims. -/

/-- Byte value of a lowercase hex digit for a nibble. -/
def hexDigitByte (n : Nat) : Nat := if n < 10 then 48 + n else 87 + n

/-- Escaping of one byte inside a JSON string literal, following Go's
encoder: quote, backslash, newline, carriage return and tab get two-byte
escapes; other control bytes and the HTML-escaped three get a six-byte
u-escape; everything else passes through. -/
def jsonEscapeByte (b : Nat) : List Nat :=
  if b = 34 then [92, 34]
  else if b = 92 then [92, 92]
  else if b = 10 then [92, 110]
  else if b = 13 then [92, 114]
  else if b = 9 then [92, 116]
  else if b = 60 ∨ b = 62 ∨ b = 38 ∨ b < 32 then
    [92, 117, 48, 48, hexDigitByte ((b >>> 4) &&& 0xf), hexDigitByte (b &&& 0xf)]
  else [b]

/-- A JSON string literal: quote, escaped bytes, quote. -/
def jsonString (s : List Nat) : List Nat := [34] ++ s.flatMap jsonEscapeByte ++ [34]

/-- Comma-separated JSON string literals. -/
def jsonArrayElems : List (List Nat) → List Nat
  | [] => []
  | [x] => jsonString x
  | x :: rest => jsonString x ++ [44] ++ jsonArrayElems rest

/-- The bytes produced by json.Marshal for a Go []string: a nil slice
marshals to null, otherwise to a bracketed array of string literals. -/
def jsonMarshalArgv : Option (List (List Nat)) → List Nat
  | none => [110, 117, 108, 108]
  | some xs => [91] ++ jsonArrayElems xs ++ [93]

/-! ## internal/utils/hash.go -/

/-- The streaming state of Go's sha256.New(): writes accumulate input and
Sum hashes everything accumulated so far. -/
structure Sha256Go where
  data : List Nat
deriving DecidableEq

def Sha256Go.new : Sha256Go := ⟨[]⟩

def Sha256Go.write (h : Sha256Go) (p : List Nat) : Sha256Go := ⟨h.data ++ p⟩

def Sha256Go.sum (h : Sha256Go) : List Nat := sha256 h.data

/-- utils.CommandHash: successive writes of raw, cwd, the argv JSON and the
shell tag into one sha256 stream, hex-encoded. -/
def CommandHash (raw cwd shell : List Nat) (argv : Option (List (List Nat))) : String :=
  let h := Sha256Go.new
  let h := h.write raw
  let h := h.write cwd
  let argvJSON := jsonMarshalArgv argv
  let h := h.write argvJSON
  let h := h.write shell
  hexEncode h.sum

/-- HMAC-SHA256 digest bytes (crypto/hmac with sha256, block size 64). -/
def hmacSha256 (key message : List Nat) : List Nat :=
  let k0 := if 64 < key.length then sha256 key else key
  let k1 := k0 ++ List.replicate (64 - k0.length) 0
  let ipad := k1.map (fun b => b ^^^ 0x36)
  let opad := k1.map (fun b => b ^^^ 0x5c)
  sha256 (opad ++ sha256 (ipad ++ message))

/-- utils.HMAC: hex-encoded HMAC-SHA256. -/
def HMAC (key message : List Nat) : String := hexEncode (hmacSha256 key message)

/-- hmac.Equal: constant-time comparison, true exactly when the two byte
strings are equal (differing lengths compare unequal). -/
def hmacEqual (a b : String) : Bool := a == b

/-- utils.VerifyHMAC: recompute the expected signature and compare. -/
def VerifyHMAC (key message : List Nat) (signature : String) : Bool :=
  let expected := HMAC key message
  hmacEqual expected signature

/-! ## Command specs and the canonical hash wrapper -/

/-- ASCII bytes of a Lean string literal (used for concrete byte strings). -/
def strBytes (s : String) : List Nat := s.toList.map Char.toNat

/-- db.CommandSpec: raw command text, working directory, shell flag,
optional argv, and the stored hash field. -/
structure CommandSpec where
  raw : List Nat
  cwd : List Nat
  shell : Bool
  argv : Option (List (List Nat))
  hash : String
deriving DecidableEq

/-- Modelled from the spec: the shell tag fed to the hash is the string
"shell" for shell execution and "exec" for argv execution (the core
package's ComputeCommandHash source is absent; its tests fix the tag set). -/
def shellTag (shell : Bool) : List Nat := if shell then strBytes "shell" else strBytes "exec"

/-- Modelled from the spec: core.ComputeCommandHash(spec) delegates to
utils.CommandHash over (raw, cwd, shell tag, argv). -/
def ComputeCommandHash (spec : CommandSpec) : String :=
  CommandHash spec.raw spec.cwd (shellTag spec.shell) spec.argv

/-! ### Helper lemmas about the hash -/

/-- The streamed writes of CommandHash hash exactly the concatenation of the
four fields. -/
theorem commandHash_concat (raw cwd shell : List Nat) (argv : Option (List (List Nat))) :
    CommandHash raw cwd shell argv =
      hexEncode (sha256 ((raw ++ cwd) ++ (jsonMarshalArgv argv ++ shell))) := by
  simp [CommandHash, Sha256Go.new, Sha256Go.write, Sha256Go.sum, List.append_assoc]

/-- Claim C2: the command hash is the hex encoding of SHA-256 over the
concatenation raw, cwd, argv JSON, shell tag; the shell tag is one of
"shell" and "exec"; and the hash is a pure function of the four fields, so
identical (raw, cwd, argv, shell) always yield identical hashes. -/
theorem commandHash_formula_and_deterministic :
    (∀ raw cwd shell argv, CommandHash raw cwd shell argv =
        hexEncode (sha256 (raw ++ cwd ++ jsonMarshalArgv argv ++ shell))) ∧
    (∀ spec : CommandSpec, ComputeCommandHash spec =
        hexEncode (sha256 (spec.raw ++ spec.cwd ++ jsonMarshalArgv spec.argv ++ shellTag spec.shell)) ∧
      (shellTag spec.shell = strBytes "shell" ∨ shellTag spec.shell = strBytes "exec")) ∧
    (∀ s1 s2 : CommandSpec, s1.raw = s2.raw → s1.cwd = s2.cwd → s1.argv = s2.argv →
      s1.shell = s2.shell → ComputeCommandHash s1 = ComputeCommandHash s2) := by
  refine ⟨fun raw cwd shell argv => ?_, fun spec => ⟨?_, ?_⟩, fun s1 s2 h1 h2 h3 h4 => ?_⟩
  · rw [commandHash_concat]
    simp [List.append_assoc]
  · rw [ComputeCommandHash, commandHash_concat]
    simp [List.append_assoc]
  · by_cases h : spec.shell <;> simp [shellTag, h]
  · rw [ComputeCommandHash, ComputeCommandHash, h1, h2, h3, h4]

/-- Witness for C2: two concrete specs that agree on (raw, cwd, argv, shell)
but differ in the stored hash field still produce the same computed hash. -/
theorem commandHash_formula_and_deterministic_witness :
    ComputeCommandHash ⟨[1], [2], true, none, "x"⟩ =
      ComputeCommandHash ⟨[1], [2], true, none, "y"⟩ :=
  commandHash_formula_and_deterministic.2.2 ⟨[1], [2], true, none, "x"⟩
    ⟨[1], [2], true, none, "y"⟩ rfl rfl rfl rfl

/-- Claim C10: the hash input concatenates raw and cwd with no separator, so
distinct (raw, cwd) pairs with the same concatenation collide for every argv
and shell tag. -/
theorem commandHash_raw_cwd_ambiguous :
    ∀ shell argv, ∃ r1 c1 r2 c2 : List Nat,
      (r1, c1) ≠ (r2, c2) ∧ r1 ++ c1 = r2 ++ c2 ∧
      CommandHash r1 c1 shell argv = CommandHash r2 c2 shell argv := by
  intro shell argv
  refine ⟨[97, 98], [99], [97], [98, 99], by decide, by decide, ?_⟩
  rw [commandHash_concat, commandHash_concat]
  rfl

set_option maxRecDepth 100000 in
/-- Claim C4: verifying the signature HMAC produces succeeds; any signature
other than the expected one (in particular one with any bit flipped) is
rejected; and flipping one bit of the key or of the message changes the
expected signature, so verification of the original signature fails — shown
at concrete inputs, where key [1] becomes [0] and message [2] becomes [3]
by flipping the lowest bit. -/
theorem verifyHMAC_roundtrip_and_bitflip :
    (∀ key message, VerifyHMAC key message (HMAC key message) = true) ∧
    (∀ key message signature, signature ≠ HMAC key message →
      VerifyHMAC key message signature = false) ∧
    VerifyHMAC [0] [2] (HMAC [1] [2]) = false ∧
    VerifyHMAC [1] [3] (HMAC [1] [2]) = false := by
  refine ⟨fun key message => ?_, fun key message signature h => ?_, by decide, by decide⟩
  · simp [VerifyHMAC, hmacEqual]
  · simp only [VerifyHMAC, hmacEqual]
    exact beq_eq_false_iff_ne.mpr (fun e => h e.symm)

set_option maxRecDepth 100000 in
/-- Witness for C4: the empty string is not the expected signature of
key [1] and message [2], and verification rejects it. -/
theorem verifyHMAC_roundtrip_and_bitflip_witness :
    "" ≠ HMAC [1] [2] ∧ VerifyHMAC [1] [2] "" = false :=
  have h : "" ≠ HMAC [1] [2] := by decide
  ⟨h, verifyHMAC_roundtrip_and_bitflip.2.1 [1] [2] "" h⟩

/-! ## Risk tiers -/

/-- db.RiskTier is a string type. -/
abbrev RiskTier := String

/-- Modelled from the spec: the total tier ordering safe < caution <
dangerous < critical, as a numeric rank (unknown strings rank lowest, which
is what the tierHigher unit tests exhibit). The core package source holding
tierHigher is absent; only its tests are present. -/
def tierRank (t : RiskTier) : Nat :=
  if t = "critical" then 3
  else if t = "dangerous" then 2
  else if t = "caution" then 1
  else 0

/-- Modelled from the spec: core.tierHigher(a, b) returns a > b in the tier
ordering. -/
def tierHigher (t1 t2 : RiskTier) : Bool := tierRank t2 < tierRank t1

/-- Claim C5: tierHigher is a strict total order on caution, dangerous and
critical: irreflexive on each, and for each distinct pair exactly one
direction holds, namely the one whose first argument is the higher tier. -/
theorem tierHigher_strict_total_order :
    (∀ x : RiskTier, x ∈ ["caution", "dangerous", "critical"] → tierHigher x x = false) ∧
    (∀ a b : RiskTier, a ∈ ["caution", "dangerous", "critical"] →
      b ∈ ["caution", "dangerous", "critical"] → a ≠ b →
      ((tierHigher a b || tierHigher b a) = true ∧ (tierHigher a b && tierHigher b a) = false)) ∧
    (tierHigher "critical" "dangerous" = true ∧ tierHigher "critical" "caution" = true ∧
     tierHigher "dangerous" "caution" = true ∧ tierHigher "dangerous" "critical" = false ∧
     tierHigher "caution" "critical" = false ∧ tierHigher "caution" "dangerous" = false) := by
  refine ⟨fun x hx => ?_, fun a b ha hb hne => ?_, by decide⟩
  · fin_cases hx <;> decide
  · fin_cases ha <;> fin_cases hb <;> simp_all <;> decide

/-- Witness for C5: the strict order facts at the concrete pair
(caution, dangerous). -/
theorem tierHigher_strict_total_order_witness :
    tierHigher "caution" "caution" = false ∧
    ((tierHigher "caution" "dangerous" || tierHigher "dangerous" "caution") = true ∧
     (tierHigher "caution" "dangerous" && tierHigher "dangerous" "caution") = false) :=
  ⟨tierHigher_strict_total_order.1 "caution" (by decide),
   tierHigher_strict_total_order.2.1 "caution" "dangerous" (by decide) (by decide) (by decide)⟩

/-! ## Request status machine -/

/-- db.RequestStatus values. -/
inductive Status
  | pending
  | approved
  | executing
  | executed
  | executionFailed
  | approvedExpired
  | rejected
  | timeout
  | cancelled
deriving DecidableEq

/-- Modelled from the spec: the terminal statuses are approved_expired,
rejected, timeout, executed, execution_failed and cancelled (db.Status
.IsTerminal source is absent). -/
def Status.isTerminal : Status → Bool
  | .approvedExpired => true
  | .rejected => true
  | .timeout => true
  | .executed => true
  | .executionFailed => true
  | .cancelled => true
  | _ => false

/-- db.Request, restricted to the fields the executor preflight reads.
Instants are integers (nanoseconds since the epoch). -/
structure Request where
  id : String
  status : Status
  approvalExpiresAt : Option Int
  command : CommandSpec
deriving DecidableEq

/-- The preflight refusal reasons; the Go function returns reason strings
("request not found", "request is already being executed", ...) which are
modelled as labels, with ok standing for the empty reason string. -/
inductive ExecReason
  | ok
  | notFound
  | alreadyExecuting
  | alreadyExecuted
  | notApproved
  | expired
  | integrityViolation
deriving DecidableEq

/-- The preflight verdict: the (bool, reason) pair returned by CanExecute,
together with the request as left in the store (the expired branch persists
the approved_expired transition). -/
structure CanExecuteResult where
  allowed : Bool
  reason : ExecReason
  post : Option Request
deriving DecidableEq

/-- Modelled from the spec: the executor preflight core.Executor.CanExecute
(source absent; its tests are present). The request is looked up (not_found
when missing), executing and executed/execution_failed states are reported
as already running or already executed, any other non-approved status is
not_approved, an approval expiry at or before now transitions the request
to approved_expired and reports expired, and finally the stored command
hash must equal the recomputed canonical hash (else integrity_violation). -/
def CanExecute (req : Option Request) (now : Int) : CanExecuteResult :=
  match req with
  | none => ⟨false, .notFound, none⟩
  | some r =>
    if r.status = .executing then ⟨false, .alreadyExecuting, some r⟩
    else if r.status = .executed ∨ r.status = .executionFailed then
      ⟨false, .alreadyExecuted, some r⟩
    else if r.status ≠ .approved then ⟨false, .notApproved, some r⟩
    else
      match r.approvalExpiresAt with
      | some t =>
          if t ≤ now then ⟨false, .expired, some { r with status := .approvedExpired }⟩
          else if r.command.hash = ComputeCommandHash r.command then ⟨true, .ok, some r⟩
          else ⟨false, .integrityViolation, some r⟩
      | none =>
          if r.command.hash = ComputeCommandHash r.command then ⟨true, .ok, some r⟩
          else ⟨false, .integrityViolation, some r⟩

/-- Claim C3: the preflight classifies by state — missing request: not
found; executing: already executing; executed or execution_failed: already
executed; any other non-approved status (pending in particular): not
approved; approved but expired: expired, with the request transitioned to
approved_expired; and it allows execution exactly when the request is
approved, unexpired, and its stored hash equals the recomputed hash. -/
theorem canExecute_classification :
    (∀ now, CanExecute none now = ⟨false, .notFound, none⟩) ∧
    (∀ r now, r.status = .executing →
      CanExecute (some r) now = ⟨false, .alreadyExecuting, some r⟩) ∧
    (∀ r now, r.status = .executed ∨ r.status = .executionFailed →
      CanExecute (some r) now = ⟨false, .alreadyExecuted, some r⟩) ∧
    (∀ r now, r.status ≠ .approved → r.status ≠ .executing → r.status ≠ .executed →
      r.status ≠ .executionFailed →
      CanExecute (some r) now = ⟨false, .notApproved, some r⟩) ∧
    (∀ r now t, r.status = .approved → r.approvalExpiresAt = some t → t ≤ now →
      CanExecute (some r) now = ⟨false, .expired, some { r with status := .approvedExpired }⟩) ∧
    (∀ r now, (CanExecute (some r) now).allowed = true ↔
      (r.status = .approved ∧
       (r.approvalExpiresAt = none ∨ ∃ t, r.approvalExpiresAt = some t ∧ now < t) ∧
       r.command.hash = ComputeCommandHash r.command)) := by
  refine ⟨fun now => rfl, fun r now h => ?_, fun r now h => ?_,
    fun r now h1 h2 h3 h4 => ?_, fun r now t h1 h2 h3 => ?_, fun r now => ?_⟩
  · simp [CanExecute, h]
  · rcases h with h | h <;> simp [CanExecute, h]
  · simp [CanExecute, h1, h2, h3, h4]
  · simp [CanExecute, h1, h2, not_lt.mpr h3]
  · constructor
    · intro hall
      by_cases h1 : r.status = .executing
      · simp [CanExecute, h1] at hall
      by_cases h2 : r.status = .executed ∨ r.status = .executionFailed
      · simp [CanExecute, h1, h2] at hall
      by_cases h3 : r.status = .approved
      · refine ⟨h3, ?_⟩
        cases he : r.approvalExpiresAt with
        | none =>
            by_cases h5 : r.command.hash = ComputeCommandHash r.command
            · exact ⟨Or.inl rfl, h5⟩
            · simp [CanExecute, h1, h2, h3, he, h5] at hall
        | some t =>
            by_cases h4 : t ≤ now
            · simp [CanExecute, h1, h2, h3, he, h4] at hall
            by_cases h5 : r.command.hash = ComputeCommandHash r.command
            · exact ⟨Or.inr ⟨t, rfl, lt_of_not_le h4⟩, h5⟩
            · simp [CanExecute, h1, h2, h3, he, h4, h5] at hall
      · simp [CanExecute, h1, h2, h3] at hall
    · rintro ⟨h3, hexp, h5⟩
      have h1 : r.status ≠ .executing := by rw [h3]; intro hc; cases hc
      have h2 : ¬(r.status = .executed ∨ r.status = .executionFailed) := by
        rw [h3]; rintro (hc | hc) <;> cases hc
      rcases hexp with he | ⟨t, he, ht⟩
      · simp [CanExecute, h1, h2, h3, he, h5]
      · simp [CanExecute, h1, h2, h3, he, not_le.mpr ht, h5]

/-- A concrete spec for the preflight witnesses. -/
def sampleSpec : CommandSpec :=
  { raw := strBytes "ls -la", cwd := strBytes "/tmp", shell := true, argv := none, hash := "" }

/-- A concrete approved request whose stored hash matches the recomputed
canonical hash and whose approval expires at instant 100. -/
def sampleApprovedRequest : Request :=
  { id := "r1", status := .approved, approvalExpiresAt := some 100,
    command := { sampleSpec with hash := ComputeCommandHash sampleSpec } }

/-- A concrete request already being executed. -/
def sampleExecutingRequest : Request :=
  { id := "r2", status := .executing, approvalExpiresAt := none, command := sampleSpec }

/-- Witness for C3: the already-executing refusal at a concrete request, and
a valid approved unexpired request with a matching hash is allowed. -/
theorem canExecute_classification_witness :
    CanExecute (some sampleExecutingRequest) 0 =
      ⟨false, .alreadyExecuting, some sampleExecutingRequest⟩ ∧
    (CanExecute (some sampleApprovedRequest) 50).allowed = true :=
  ⟨canExecute_classification.2.1 sampleExecutingRequest 0 rfl,
   (canExecute_classification.2.2.2.2.2 sampleApprovedRequest 50).mpr
     ⟨rfl, Or.inr ⟨100, rfl, by decide⟩, rfl⟩⟩

/-! ## Dry-run rewrites (core.GetDryRunCommand) -/

/-- Split a character list into whitespace-separated fields (strings.Fields
restricted to the space character), accumulating the current token in
reverse. -/
def splitFields (cs : List Char) (cur : List Char) : List String :=
  match cs with
  | [] => if cur = [] then [] else [String.mk cur.reverse]
  | c :: rest =>
      if c = ' ' then
        if cur = [] then splitFields rest [] else String.mk cur.reverse :: splitFields rest []
      else splitFields rest (c :: cur)

/-- Whitespace-separated fields of a command line. -/
def fields (s : String) : List String := splitFields s.toList []

/-- Whether the first character list begins with the second. -/
def listStartsWith : List Char → List Char → Bool
  | _, [] => true
  | [], _ :: _ => false
  | a :: as, b :: bs => a = b && listStartsWith as bs

/-- strings.HasPrefix: whether `s` begins with `p`. -/
def strStartsWith (s p : String) : Bool := listStartsWith s.toList p.toList

/-- Join tokens back into a command line with single spaces. -/
def joinSpace (toks : List String) : String := String.intercalate " " toks

/-- The wrapper tokens stripped before classification and rewrite. -/
def wrapperTokens : List String := ["sudo", "env", "time", "nice"]

/-- Drop leading wrapper tokens. -/
def stripWrappers : List String → List String
  | [] => []
  | t :: rest => if t ∈ wrapperTokens then stripWrappers rest else t :: rest

/-- Modelled from the spec: the rewrite step of core.GetDryRunCommand on
the wrapper-stripped token list (source absent; its tests are present).
The supported destructive prefixes are rewritten per the table — kubectl
delete gains a client dry-run unless one is already present, rm -rf lists
instead, git reset --hard diffs against HEAD, terraform destroy plans the
destroy, helm uninstall fetches the manifest — and everything else is
unsupported. -/
def getDryRunTokens (toks : List String) : String × Bool :=
  match toks with
  | "kubectl" :: "delete" :: _ =>
      if toks.any (fun t => strStartsWith t "--dry-run") then (joinSpace toks, true)
      else (joinSpace (toks ++ ["--dry-run=client", "-o", "yaml"]), true)
  | "rm" :: "-rf" :: paths => (joinSpace ("ls" :: "-la" :: paths), true)
  | "git" :: "reset" :: "--hard" :: ref :: _ => ("git diff " ++ ref ++ "..HEAD", true)
  | "terraform" :: "destroy" :: _ => ("terraform plan -destroy", true)
  | "helm" :: "uninstall" :: rel :: _ => ("helm get manifest " ++ rel, true)
  | _ => ("", false)

/-- Modelled from the spec: core.GetDryRunCommand strips wrapper tokens and
rewrites what remains. -/
def GetDryRunCommand (raw : String) : String × Bool :=
  getDryRunTokens (stripWrappers (fields raw))

/-- Claim C8: the dry-run rewrite table holds for every argument list —
kubectl delete gains the client dry-run flags for all args when none is
present and is unchanged for all args when one is, rm -rf becomes an ls
listing of every path list, git reset --hard becomes a diff against HEAD
for every ref, terraform destroy becomes a destroy plan, helm uninstall
becomes a manifest fetch of every release — every token list outside these
five prefixes (so every unsupported input) reports false, wrapper tokens
are stripped before matching, and the concrete test vectors evaluate as
the tests expect. -/
theorem getDryRunCommand_table :
    (∀ raw, GetDryRunCommand raw = getDryRunTokens (stripWrappers (fields raw))) ∧
    (∀ args, ("kubectl" :: "delete" :: args).any (fun t => strStartsWith t "--dry-run") = false →
      getDryRunTokens ("kubectl" :: "delete" :: args) =
        (joinSpace ("kubectl" :: "delete" :: (args ++ ["--dry-run=client", "-o", "yaml"])), true)) ∧
    (∀ args, ("kubectl" :: "delete" :: args).any (fun t => strStartsWith t "--dry-run") = true →
      getDryRunTokens ("kubectl" :: "delete" :: args) =
        (joinSpace ("kubectl" :: "delete" :: args), true)) ∧
    (∀ paths, getDryRunTokens ("rm" :: "-rf" :: paths) =
      (joinSpace ("ls" :: "-la" :: paths), true)) ∧
    (∀ ref rest, getDryRunTokens ("git" :: "reset" :: "--hard" :: ref :: rest) =
      ("git diff " ++ ref ++ "..HEAD", true)) ∧
    (∀ rest, getDryRunTokens ("terraform" :: "destroy" :: rest) =
      ("terraform plan -destroy", true)) ∧
    (∀ rel rest, getDryRunTokens ("helm" :: "uninstall" :: rel :: rest) =
      ("helm get manifest " ++ rel, true)) ∧
    (∀ toks, (getDryRunTokens toks).2 = true →
      (∃ args, toks = "kubectl" :: "delete" :: args) ∨
      (∃ paths, toks = "rm" :: "-rf" :: paths) ∨
      (∃ ref rest, toks = "git" :: "reset" :: "--hard" :: ref :: rest) ∨
      (∃ rest, toks = "terraform" :: "destroy" :: rest) ∨
      (∃ rel rest, toks = "helm" :: "uninstall" :: rel :: rest)) ∧
    (GetDryRunCommand "kubectl delete deployment foo" =
      ("kubectl delete deployment foo --dry-run=client -o yaml", true) ∧
    GetDryRunCommand "kubectl delete deployment foo --dry-run=client" =
      ("kubectl delete deployment foo --dry-run=client", true) ∧
    GetDryRunCommand "rm -rf ./build" = ("ls -la ./build", true) ∧
    GetDryRunCommand "git reset --hard HEAD~5" = ("git diff HEAD~5..HEAD", true) ∧
    GetDryRunCommand "terraform destroy" = ("terraform plan -destroy", true) ∧
    GetDryRunCommand "helm uninstall myrelease" = ("helm get manifest myrelease", true) ∧
    GetDryRunCommand "sudo kubectl delete pod nginx-123" =
      ("kubectl delete pod nginx-123 --dry-run=client -o yaml", true) ∧
    (GetDryRunCommand "echo hello").2 = false) := by
  refine ⟨fun raw => rfl, fun args h => ?_, fun args h => ?_, fun paths => rfl,
    fun ref rest => rfl, fun rest => rfl, fun rel rest => rfl, fun toks h => ?_, by decide⟩
  · simp [getDryRunTokens, h]
  · simp [getDryRunTokens, h]
  · unfold getDryRunTokens at h
    split at h
    · exact Or.inl ⟨_, rfl⟩
    · exact Or.inr (Or.inl ⟨_, rfl⟩)
    · exact Or.inr (Or.inr (Or.inl ⟨_, _, rfl⟩))
    · exact Or.inr (Or.inr (Or.inr (Or.inl ⟨_, rfl⟩)))
    · exact Or.inr (Or.inr (Or.inr (Or.inr ⟨_, _, rfl⟩)))
    · simp at h

/-- Witness for C8: the kubectl rewrite universal applied to the args
[deployment, foo] (no dry-run flag present), and the supported-shape
characterization applied to the rm token list. -/
theorem getDryRunCommand_table_witness :
    getDryRunTokens ["kubectl", "delete", "deployment", "foo"] =
      (joinSpace ["kubectl", "delete", "deployment", "foo", "--dry-run=client", "-o", "yaml"],
        true) ∧
    ((∃ args, ["rm", "-rf", "./build"] = "kubectl" :: "delete" :: args) ∨
     (∃ paths, ["rm", "-rf", "./build"] = "rm" :: "-rf" :: paths) ∨
     (∃ ref rest, ["rm", "-rf", "./build"] = "git" :: "reset" :: "--hard" :: ref :: rest) ∨
     (∃ rest, ["rm", "-rf", "./build"] = "terraform" :: "destroy" :: rest) ∨
     (∃ rel rest, ["rm", "-rf", "./build"] = "helm" :: "uninstall" :: rel :: rest)) :=
  ⟨getDryRunCommand_table.2.1 ["deployment", "foo"] (by decide),
   getDryRunCommand_table.2.2.2.2.2.2.2.1 ["rm", "-rf", "./build"] (by decide)⟩

/-! ## Rollback capture retention (core.cleanupOldRollbackCaptures) -/

/-- A directory entry of the rollback root: its base name, whether it is a
directory, and its modification time (nanoseconds since the epoch). -/
structure DirEntry where
  name : String
  isDir : Bool
  modTime : Int
deriving DecidableEq

/-- Whether the retention pass deletes an entry: it must be a directory,
named with the req- prefix, and older than the retention cutoff. -/
def shouldDeleteCapture (retention now : Int) (e : DirEntry) : Bool :=
  e.isDir && strStartsWith e.name "req-" && decide (e.modTime < now - retention)

/-- One pass over the root's entries, removing the stale capture
directories and keeping everything else. -/
def cleanupEntries (retention now : Int) : List DirEntry → List DirEntry
  | [] => []
  | e :: rest =>
      if shouldDeleteCapture retention now e then cleanupEntries retention now rest
      else e :: cleanupEntries retention now rest

/-- Modelled from the spec: core.cleanupOldRollbackCaptures(root, retention,
now) (source absent; its tests are present). A non-positive retention is a
no-op, a missing root is a no-op, and otherwise exactly the stale req-
capture directories are deleted. The root directory listing is none when
the root does not exist. -/
def cleanupOldRollbackCaptures (root : Option (List DirEntry)) (retention now : Int) :
    Option (List DirEntry) :=
  if retention ≤ 0 then root
  else
    match root with
    | none => none
    | some entries => some (cleanupEntries retention now entries)

/-- The cleanup pass is the filter keeping the non-deletable entries. -/
theorem cleanupEntries_eq_filter (retention now : Int) (l : List DirEntry) :
    cleanupEntries retention now l = l.filter (fun e => !(shouldDeleteCapture retention now e)) := by
  induction l with
  | nil => rfl
  | cons e rest ih =>
      by_cases h : shouldDeleteCapture retention now e = true <;>
        simp [cleanupEntries, List.filter, h, ih]

/-- Claim C9: cleanup is a no-op for non-positive retention and for a
missing root; otherwise it maps the listing through the deletion pass, and
an entry survives that pass exactly when it is not a stale req- capture
directory — every file, every directory without the req- prefix, and every
sufficiently recent req- directory is kept. -/
theorem cleanupOldRollbackCaptures_characterization :
    (∀ root retention now, retention ≤ 0 → cleanupOldRollbackCaptures root retention now = root) ∧
    (∀ retention now, cleanupOldRollbackCaptures none retention now = none) ∧
    (∀ entries retention now, 0 < retention →
      cleanupOldRollbackCaptures (some entries) retention now =
        some (cleanupEntries retention now entries)) ∧
    (∀ (entries : List DirEntry) retention now (e : DirEntry),
      (e ∈ cleanupEntries retention now entries ↔
        e ∈ entries ∧
          ¬(e.isDir = true ∧ strStartsWith e.name "req-" = true ∧
            e.modTime < now - retention))) := by
  refine ⟨fun root retention now h => ?_, fun retention now => ?_,
    fun entries retention now h => ?_, fun entries retention now e => ?_⟩
  · simp [cleanupOldRollbackCaptures, h]
  · by_cases h : retention ≤ 0 <;> simp [cleanupOldRollbackCaptures, h]
  · simp [cleanupOldRollbackCaptures, not_le.mpr h]
  · rw [cleanupEntries_eq_filter, List.mem_filter]
    refine and_congr_right fun _ => ?_
    have hiff : shouldDeleteCapture retention now e = true ↔
        (e.isDir = true ∧ strStartsWith e.name "req-" = true ∧
          e.modTime < now - retention) := by
      simp [shouldDeleteCapture, Bool.and_eq_true, decide_eq_true_eq, and_assoc]
    constructor
    · intro hb hc
      rw [hiff.mpr hc] at hb
      cases hb
    · intro hc
      cases hsd : shouldDeleteCapture retention now e
      · rfl
      · exact absurd (hiff.mp hsd) hc

/-- Witness for C9: with a one-hour retention at instant 0, the stale
req-old capture directory is deleted while a plain file named req-file, a
stale directory named other, and a fresh req-recent directory survive. -/
theorem cleanupOldRollbackCaptures_witness :
    cleanupOldRollbackCaptures
        (some [⟨"req-old", true, -7200⟩, ⟨"req-recent", true, -100⟩,
               ⟨"other", true, -7200⟩, ⟨"req-file", false, -7200⟩]) 3600 0 =
      some [⟨"req-recent", true, -100⟩, ⟨"other", true, -7200⟩, ⟨"req-file", false, -7200⟩] ∧
    (⟨"req-old", true, -7200⟩ : DirEntry) ∉
      cleanupEntries 3600 0
        [⟨"req-old", true, -7200⟩, ⟨"req-recent", true, -100⟩,
         ⟨"other", true, -7200⟩, ⟨"req-file", false, -7200⟩] :=
  ⟨by rw [cleanupOldRollbackCaptures_characterization.2.2.1 _ 3600 0 (by decide)]; decide,
   fun h => by
    have := (cleanupOldRollbackCaptures_characterization.2.2.2
      [⟨"req-old", true, -7200⟩, ⟨"req-recent", true, -100⟩,
       ⟨"other", true, -7200⟩, ⟨"req-file", false, -7200⟩] 3600 0
      ⟨"req-old", true, -7200⟩).mp h
    exact this.2 (by refine ⟨rfl, by decide, by decide⟩)⟩

/-! ## Request creation and the run command (internal/cli/run.go) -/

/-- The result of request creation: whether review was skipped and the
persisted request, if any. -/
structure CreateResult where
  skipped : Bool
  request : Option Request
deriving DecidableEq

/-- Outcome of core.RequestCreator.CreateRequest: an error kind, or a
result together with the store contents afterwards. -/
inductive CreateOutcome
  | error (kind : String)
  | ok (result : CreateResult) (store : List Request)
deriving DecidableEq

/-- Modelled from the spec: core.RequestCreator.CreateRequest (source
absent; run.go calls it). The session must exist and not be blocked, the
rate limiter (reject action) must pass, the command is classified, and a
safe tier returns skipped=true without persisting anything; any other tier
persists the request with status pending. The classifier and the
session/rate-limit verdicts are parameters of the model. -/
def CreateRequest (classify : List Nat → RiskTier) (store : List Request)
    (sessionOk blocked rateLimited : Bool) (req : Request) : CreateOutcome :=
  if sessionOk = false then .error "not_found"
  else if blocked = true then .error "blocked_agent"
  else if rateLimited = true then .error "rate_limited"
  else if classify req.command.raw = "safe" then .ok ⟨true, none⟩ store
  else
    let pendingReq := { req with status := Status.pending }
    .ok ⟨false, some pendingReq⟩ (store ++ [pendingReq])

/-- The response fields of runSafeCommand's success map (run.go): status
"executed", the command, its exit code, tier "safe" and
skipped_approval=true. -/
structure RunSafeResponse where
  status : String
  command : List Nat
  exitCode : Int
  tier : String
  skippedApproval : Bool
deriving DecidableEq

/-- runSafeCommand (run.go): execute directly on the requestor path and
report the executed response; the command runner is abstracted by the exit
code it produces. -/
def runSafeCommand (command : List Nat) (exitCode : Int) : RunSafeResponse :=
  { status := "executed", command := command, exitCode := exitCode,
    tier := "safe", skippedApproval := true }

/-- The outcome of the run command up to the wait loop: a creation error,
the safe-bypass response, or a persisted request to await. -/
inductive RunOutcome
  | errorResp (kind : String)
  | safe (resp : RunSafeResponse)
  | await (request : Request)
deriving DecidableEq

/-- The run command's creation-and-dispatch step (run.go RunE steps 1 and
2): create the request; on a safe-tier skip, execute locally via
runSafeCommand; otherwise hand the persisted request to the wait loop. The
returned store is the store after the step. -/
def runCreateStep (classify : List Nat → RiskTier) (store : List Request)
    (sessionOk blocked rateLimited : Bool) (req : Request) (exitCode : Int) :
    RunOutcome × List Request :=
  match CreateRequest classify store sessionOk blocked rateLimited req with
  | .error kind => (.errorResp kind, store)
  | .ok result store' =>
      if result.skipped then (.safe (runSafeCommand req.command.raw exitCode), store')
      else
        match result.request with
        | some r => (.await r, store')
        | none => (.errorResp "request_failed", store')

/-- Claim C6: when the command classifies as safe and creation passes
validation, creation returns skipped=true with no request persisted (the
store is unchanged), and the run path executes directly, reporting status
executed, tier safe, skipped_approval true and the command's exit code. -/
theorem run_safe_bypass (classify : List Nat → RiskTier) (store : List Request)
    (req : Request) (exitCode : Int) (hsafe : classify req.command.raw = "safe") :
    CreateRequest classify store true false false req = .ok ⟨true, none⟩ store ∧
    runCreateStep classify store true false false req exitCode =
      (.safe { status := "executed", command := req.command.raw, exitCode := exitCode,
               tier := "safe", skippedApproval := true }, store) := by
  constructor
  · simp [CreateRequest, hsafe]
  · simp [runCreateStep, CreateRequest, hsafe, runSafeCommand]

/-- Witness for C6: the constantly-safe classifier on a concrete request
with exit code 0 bypasses review and leaves the empty store empty. -/
theorem run_safe_bypass_witness :
    runCreateStep (fun _ => "safe") [] true false false sampleExecutingRequest 0 =
      (.safe { status := "executed", command := sampleExecutingRequest.command.raw,
               exitCode := 0, tier := "safe", skippedApproval := true }, []) :=
  (run_safe_bypass (fun _ => "safe") [] sampleExecutingRequest 0 rfl).2

/-! ## The wait-for-approval loop (run.go RunE step 4) -/

/-- Outcome of the requestor's wait loop: a failed poll, a request observed
in a terminal status, the wall-clock deadline reached, or an approved
request handed on to execution. -/
inductive WaitOutcome
  | pollFailed
  | terminalFailure (s : Status)
  | timedOut
  | proceed (r : Request)
deriving DecidableEq

/-- The wait-for-approval loop of run.go, with the 500 ms polling interval
abstracted into one fuel unit per poll, so the fuel is the number of polls
the wall-clock deadline allows. `fetch i` is the store's answer to the
i-th poll (none models a poll error). The second component lists the status
updates the loop writes to the store: on deadline with the request still
pending it transitions it to timeout; every other exit writes nothing. -/
def waitForApproval (fetch : Nat → Option Request) (reqId : String) :
    Nat → Nat → Request → WaitOutcome × List (String × Status)
  | 0, _, req =>
      if req.status = .pending then (.timedOut, [(reqId, .timeout)])
      else (.proceed req, [])
  | fuel+1, i, _ =>
      match fetch i with
      | none => (.pollFailed, [])
      | some r =>
          if r.status = .approved then (.proceed r, [])
          else if r.status.isTerminal then (.terminalFailure r.status, [])
          else waitForApproval fetch reqId fuel (i+1) r

/-- Claim C7: if every poll up to the deadline observes the request still
pending, the loop ends in timeout and writes the pending-to-timeout
transition; and whenever a poll observes the request approved, or in any
terminal status, the loop exits early on that poll without writing the
timeout transition. -/
theorem waitForApproval_timeout_and_early_exit :
    (∀ (fetch : Nat → Option Request) reqId fuel i req, req.status = .pending →
      (∀ j, ∃ r, fetch j = some r ∧ r.status = .pending) →
      waitForApproval fetch reqId fuel i req = (.timedOut, [(reqId, .timeout)])) ∧
    (∀ (fetch : Nat → Option Request) reqId fuel i req r, fetch i = some r →
      r.status = .approved →
      waitForApproval fetch reqId (fuel+1) i req = (.proceed r, [])) ∧
    (∀ (fetch : Nat → Option Request) reqId fuel i req r, fetch i = some r →
      r.status ≠ .approved → r.status.isTerminal = true →
      waitForApproval fetch reqId (fuel+1) i req = (.terminalFailure r.status, [])) := by
  refine ⟨fun fetch reqId fuel => ?_, fun fetch reqId fuel i req r hf ha => ?_,
    fun fetch reqId fuel i req r hf ha ht => ?_⟩
  · induction fuel with
    | zero => intro i req hp _; simp [waitForApproval, hp]
    | succ n ih =>
        intro i req hp hall
        obtain ⟨r, hr, hrp⟩ := hall i
        have h1 : r.status ≠ .approved := by rw [hrp]; intro hc; cases hc
        have h2 : r.status.isTerminal = false := by rw [hrp]; rfl
        simp only [waitForApproval, hr]
        rw [if_neg h1]
        simp only [h2, Bool.false_eq_true, if_false]
        exact ih (i+1) r hrp hall
  · simp [waitForApproval, hf, ha]
  · simp [waitForApproval, hf, ha, ht]

/-- A concrete pending request for the wait-loop witness. -/
def samplePendingRequest : Request :=
  { id := "r3", status := .pending, approvalExpiresAt := none, command := sampleSpec }

/-- Witness for C7: a store that always answers pending forces the timeout
transition, and a store that answers approved at the first poll exits with
that request and writes nothing. -/
theorem waitForApproval_timeout_and_early_exit_witness :
    waitForApproval (fun _ => some samplePendingRequest) "r3" 3 0 samplePendingRequest =
      (.timedOut, [("r3", .timeout)]) ∧
    waitForApproval (fun _ => some sampleApprovedRequest) "r1" 3 0 samplePendingRequest =
      (.proceed sampleApprovedRequest, []) :=
  ⟨waitForApproval_timeout_and_early_exit.1 (fun _ => some samplePendingRequest) "r3" 3 0
      samplePendingRequest rfl (fun _ => ⟨samplePendingRequest, rfl, rfl⟩),
   waitForApproval_timeout_and_early_exit.2.1 (fun _ => some sampleApprovedRequest) "r1" 2 0
      samplePendingRequest sampleApprovedRequest rfl rfl⟩

/-! ## Rollback restore (core.RestoreRollbackState)

The filesystem is a finite map from absolute paths (component lists) to
nodes. Symlink resolution follows symlinks encountered along a path, so a
write with no refusal check would land through a symlinked parent at the
link's target — the model therefore distinguishes the literal (lstat-like)
parent walk the restore performs from the resolving write it guards. -/

/-- A filesystem node: a directory, a regular file with its content bytes,
or a symbolic link with its target path. -/
inductive FNode
  | dir
  | file (content : List Nat)
  | symlink (target : List String)
deriving DecidableEq

/-- A filesystem: an association list from paths to nodes. -/
abbrev FileSystem := List (List String × FNode)

/-- Literal (lstat-like) lookup of a path, following no symlinks. -/
def lookupNode (fs : FileSystem) (p : List String) : Option FNode :=
  match fs with
  | [] => none
  | (q, n) :: rest => if q = p then some n else lookupNode rest p

/-- Insert or replace the node at a path. -/
def insertNode (fs : FileSystem) (p : List String) (n : FNode) : FileSystem :=
  match fs with
  | [] => [(p, n)]
  | (q, m) :: rest => if q = p then (q, n) :: rest else (q, m) :: insertNode rest p n

/-- The proper non-empty ancestors of a path, shortest first. -/
def properAncestors (p : List String) : List (List String) :=
  (List.range (p.length - 1)).map (fun i => p.take (i+1))

/-- Whether the literal path is a symlink. -/
def isSymlinkAt (fs : FileSystem) (p : List String) : Bool :=
  match lookupNode fs p with
  | some (.symlink _) => true
  | _ => false

/-- The parent walk of the restore: whether any proper ancestor of the
target is a symlink. -/
def hasSymlinkParent (fs : FileSystem) (p : List String) : Bool :=
  (properAncestors p).any (fun q => isSymlinkAt fs q)

/-- Resolve a path, following any symlink met along it; `acc` is the
already-resolved prefix and the fuel bounds the symlink hops. -/
def resolvePath (fs : FileSystem) : Nat → List String → List String → Option (List String)
  | _, acc, [] => some acc
  | 0, _, _ :: _ => none
  | fuel+1, acc, c :: rest =>
      match lookupNode fs (acc ++ [c]) with
      | some (.symlink target) => resolvePath fs fuel [] (target ++ rest)
      | _ => resolvePath fs fuel (acc ++ [c]) rest

/-- Default resolution fuel: generous for any concrete filesystem. -/
def resolveFuel (fs : FileSystem) (p : List String) : Nat :=
  fs.length + p.length + 64

/-- Whether a path exists as a directory after resolution (what Go's
MkdirAll checks: a symlink to a directory counts). -/
def isDirResolving (fs : FileSystem) (p : List String) : Bool :=
  match resolvePath fs (resolveFuel fs p) [] p with
  | some rp =>
      rp = [] ||
        (match lookupNode fs rp with
         | some .dir => true
         | _ => false)
  | none => false

/-- os.MkdirAll: a no-op when the path already resolves to a directory,
otherwise create the directory node. -/
def mkdirAll (fs : FileSystem) (p : List String) : FileSystem :=
  if isDirResolving fs p then fs else insertNode fs p .dir

/-- A resolving write: place the node where the parent chain leads, which
is through any symlinked parent — this is the write the refusal guards. -/
def writeNode (fs : FileSystem) (p : List String) (n : FNode) : FileSystem :=
  match p.getLast? with
  | none => fs
  | some last =>
      match resolvePath fs (resolveFuel fs p) [] p.dropLast with
      | some rp => insertNode fs (rp ++ [last]) n
      | none => fs

/-- A tar entry of the snapshot, with its target already mapped through the
manifest to an absolute path. -/
structure TarEntry where
  path : List String
  node : FNode
deriving DecidableEq

/-- Modelled from the spec: the per-entry step of core.RestoreRollbackState
(source absent; its tests are present). The full target path is computed,
each parent directory is walked and any symlink among them refuses the
restore; only then are directories recreated and files and symlinks
written. -/
def restoreEntry (fs : FileSystem) (e : TarEntry) : Except String FileSystem :=
  if hasSymlinkParent fs e.path then .error "refusing to restore through symlink parent"
  else
    match e.node with
    | .dir => .ok (mkdirAll fs e.path)
    | n => .ok (writeNode fs e.path n)

/-- Modelled from the spec: core.RestoreRollbackState over the snapshot's
entries, aborting on the first refusal. Returns the filesystem reached and
the error, if any. -/
def RestoreRollbackState (fs : FileSystem) : List TarEntry → FileSystem × Option String
  | [] => (fs, none)
  | e :: rest =>
      match restoreEntry fs e with
      | .ok fs1 => RestoreRollbackState fs1 rest
      | .error msg => (fs, some msg)

/-- The filesystem of the symlink-attack scenario: work and work/build are
directories, work/build/sub has been replaced by a symlink to /tmp/outside,
which exists. -/
def attackFs : FileSystem :=
  [(["work"], .dir), (["work", "build"], .dir),
   (["work", "build", "sub"], .symlink ["tmp", "outside"]),
   (["tmp"], .dir), (["tmp", "outside"], .dir)]

/-- The captured snapshot of build: its directories and build/sub/a.txt. -/
def attackEntries : List TarEntry :=
  [⟨["work", "build"], .dir⟩, ⟨["work", "build", "sub"], .dir⟩,
   ⟨["work", "build", "sub", "a.txt"], .file (strBytes "hello")⟩]

/-- Claim C1: whenever some parent directory of an entry's target is a
symlink at the time the entry is restored, the restore returns an error
and leaves the filesystem as it was, writing nothing; in the concrete
attack — build/sub/a.txt captured, build/sub later replaced by a symlink to
/tmp/outside — the whole restore fails and /tmp/outside/a.txt is never
created. -/
theorem restoreRollbackState_refuses_symlink_parent :
    (∀ (fs : FileSystem) (e : TarEntry) (rest : List TarEntry),
      hasSymlinkParent fs e.path = true →
      RestoreRollbackState fs (e :: rest) =
        (fs, some "refusing to restore through symlink parent")) ∧
    ((RestoreRollbackState attackFs attackEntries).2.isSome = true ∧
     (RestoreRollbackState attackFs attackEntries).1 = attackFs ∧
     lookupNode (RestoreRollbackState attackFs attackEntries).1
       ["tmp", "outside", "a.txt"] = none) := by
  refine ⟨fun fs e rest h => ?_, by decide, by decide, by decide⟩
  simp [RestoreRollbackState, restoreEntry, h]

/-- Witness for C1: in the attack filesystem, the a.txt entry has a symlink
parent and restoring it (whatever follows it) fails in place. -/
theorem restoreRollbackState_refuses_symlink_parent_witness :
    RestoreRollbackState attackFs [⟨["work", "build", "sub", "a.txt"],
        .file (strBytes "hello")⟩] =
      (attackFs, some "refusing to restore through symlink parent") :=
  restoreRollbackState_refuses_symlink_parent.1 attackFs
    ⟨["work", "build", "sub", "a.txt"], .file (strBytes "hello")⟩ [] (by decide)

end SLB
